import Mathlib

/-!
# Verification of the PRISM climate downloader against its specification

Shallow embedding of the repository's core logic:

* `download_daily_all_2001_2024.py` — `download_file` / `download_date_variable`
  (per-URL retry loop, 404 fallback dispatch, skip-if-present check);
* `prism_bulk_download.py` — `download_file` / `download_batch` (the bulk
  downloader's retry loop and its existence-only skip check);
* `process_prism_data.py` — `read_bil_data`, `read_prism_dataset`,
  `parse_filename`, grid specifications;
* `prism_to_zarr.py` — coordinate generation and `process_time_series`
  (batching, per-batch time sort, create/append, metadata consolidation).

Network and filesystem effects are made explicit: the state of the
destination file is a `FileState`, and the outcome of the k-th fetch attempt
against a URL is given by a function `Nat → Outcome`.  Machine floats in the
decoded payload are idealised as exact rationals.  Bounded loops are written
with an explicit iteration budget so that every definition evaluates by
kernel reduction.
-/

deriving instance DecidableEq for Except

/-! ## String primitives

Character-list implementations of the host string operations used by the
sources (`in`, `replace`, `split`, `endswith`), written so they reduce. -/

/-- Substring test, the embedding of the host language's `sub in s`:
some suffix of `s` has `pat` as a prefix. -/
def containsSub (s pat : String) : Bool :=
  (s.toList.tails).any (fun t => pat.toList.isPrefixOf t)

/-- Scanner for `replaceAll`: at `skip = 0` test for an occurrence of `pat`
at the current position; on a match emit `repl` and pass over the rest of
the matched characters, otherwise keep the character.  Matches are found
left to right and do not overlap, as in the host `str.replace`. -/
def replaceScan (pat repl : List Char) : List Char → Nat → List Char
  | [], _ => []
  | c :: rest, 0 =>
      if pat ≠ [] ∧ pat.isPrefixOf (c :: rest) then
        repl ++ replaceScan pat repl rest (pat.length - 1)
      else c :: replaceScan pat repl rest 0
  | _ :: rest, skip + 1 => replaceScan pat repl rest skip

/-- The host `s.replace(pat, repl)` for a nonempty pattern: replace every
occurrence. -/
def replaceAll (s pat repl : List Char) : List Char :=
  replaceScan pat repl s 0

/-- The host `s.split(sep)` for a single-character separator. -/
def splitOnChar (sep : Char) : List Char → List (List Char)
  | [] => [[]]
  | c :: rest =>
      if c = sep then [] :: splitOnChar sep rest
      else
        match splitOnChar sep rest with
        | [] => [[c]]
        | h :: t => (c :: h) :: t

/-! ## Acquisition engine: `download_daily_all_2001_2024.py` -/

/-- Outcome of one `urllib.request.urlopen` attempt against a URL.
`httpErr c` is an `HTTPError` with status `c` (404 included);
`exc m` is any other exception, carrying its string rendering. -/
inductive Outcome where
  | ok
  | httpErr (code : Nat)
  | exc (msg : String)
deriving DecidableEq

/-- State of the destination file at the start of a `download_file` call:
whether it exists and its size in bytes.  Failed attempts write nothing, so
the state is constant over the attempts of one call. -/
structure FileState where
  present : Bool
  size : Nat
deriving DecidableEq

/-- The skip condition of `download_file` in `download_daily_all_2001_2024.py`:
`output_path.exists()` and `file_size > 1000`. -/
def fileOk (fs : FileState) : Bool :=
  fs.present && decide (1000 < fs.size)

/-- Result of one `download_file` call, instrumented with the number of
network fetches performed (`urlCalls`) and the backoff sleeps executed
(`delays`, in seconds, in order). -/
structure DLResult where
  success : Bool
  message : String
  urlCalls : Nat
  delays : List Nat
deriving DecidableEq

/-- The retry loop of `download_file` (lines 70–102 of
`download_daily_all_2001_2024.py`): attempt index `a`, with `fuel + 1`
iterations remaining (so the last attempt, `attempt == max_retries - 1` in
the source, is the one entered with `fuel = 0`).  Each iteration first
re-checks the skip condition, then attempts the fetch: success returns
`"Success"`; an HTTP 404 returns immediately (terminal for this URL); any
other error is retried after a `2 ^ attempt` second sleep, except on the
last attempt, which reports the error.  An exhausted loop (never entered
for a positive retry bound) reports `"Max retries exceeded"`. -/
def dlLoop (fs : FileState) (att : Nat → Outcome) : Nat → Nat → DLResult
  | _, 0 => ⟨false, "Max retries exceeded", 0, []⟩
  | a, fuel + 1 =>
      if fileOk fs then ⟨true, "Already downloaded", 0, []⟩
      else
        match att a with
        | Outcome.ok => ⟨true, "Success", 1, []⟩
        | Outcome.httpErr code =>
            if code = 404 then ⟨false, "File not found (404)", 1, []⟩
            else if fuel = 0 then ⟨false, "HTTP Error " ++ toString code, 1, []⟩
            else
              let r := dlLoop fs att (a + 1) fuel
              ⟨r.success, r.message, r.urlCalls + 1, 2 ^ a :: r.delays⟩
        | Outcome.exc msg =>
            if fuel = 0 then ⟨false, msg, 1, []⟩
            else
              let r := dlLoop fs att (a + 1) fuel
              ⟨r.success, r.message, r.urlCalls + 1, 2 ^ a :: r.delays⟩

/-- `download_file(url, output_path, max_retries)`: run the retry loop from
attempt 0 with `maxRetries` iterations. -/
def downloadFile (fs : FileState) (att : Nat → Outcome) (maxRetries : Nat) : DLResult :=
  dlLoop fs att 0 maxRetries

/-- The per-task result dictionary built by `download_date_variable`. -/
structure FetchResult where
  dateStr : String
  varName : String
  success : Bool
  message : String
  path : Option String
deriving DecidableEq

/-- Destination path of a task, `output_dir / variable / filename` with
`filename = PRISM_<var>_stable_4kmD2_<date>_bil.zip`. -/
def outPathOf (dateStr varName : String) : String :=
  varName ++ "/PRISM_" ++ varName ++ "_stable_4kmD2_" ++ dateStr ++ "_bil.zip"

/-- `download_date_variable` (lines 104–125): fetch the primary URL; if that
failed and the failure message contains `"404"`, fetch the fallback URL.
`pa`/`fa` give the attempt outcomes of the primary and fallback URLs.  The
second component records whether the fallback was attempted. -/
def downloadDateVariable (fs : FileState) (pa fa : Nat → Outcome)
    (dateStr varName : String) : FetchResult × Bool :=
  let r1 := downloadFile fs pa 3
  if !r1.success && containsSub r1.message "404" then
    let r2 := downloadFile fs fa 3
    (⟨dateStr, varName, r2.success, r2.message,
      if r2.success then some (outPathOf dateStr varName) else none⟩, true)
  else
    (⟨dateStr, varName, r1.success, r1.message,
      if r1.success then some (outPathOf dateStr varName) else none⟩, false)

/-- `download_range` classifies a completed task as skipped ("already
exists") when it succeeded and its message contains `"Already"`. -/
def dailySkipped (fs : FileState) (pa fa : Nat → Outcome)
    (dateStr varName : String) : Bool :=
  let r := (downloadDateVariable fs pa fa dateStr varName).1
  r.success && containsSub r.message "Already"

/-- Total number of network fetches performed by one
`download_date_variable` task. -/
def dailyUrlCalls (fs : FileState) (pa fa : Nat → Outcome) : Nat :=
  let r1 := downloadFile fs pa 3
  if !r1.success && containsSub r1.message "404" then
    r1.urlCalls + (downloadFile fs fa 3).urlCalls
  else r1.urlCalls

/-! ## Acquisition engine: `prism_bulk_download.py` -/

/-- Outcome of one `urllib.request.urlretrieve` attempt in the bulk
downloader: success, a `URLError`, or any other exception. -/
inductive BulkOutcome where
  | ok
  | urlErr (msg : String)
  | exc (msg : String)
deriving DecidableEq

/-- The retry loop of `PRISMDownloader.download_file` (lines 101–139 of
`prism_bulk_download.py`): attempt index `a` with `fuel + 1` iterations
remaining (`attempt < retries - 1` in the source is `fuel ≠ 0` here).
Success returns `true`; a `URLError` sleeps `2 ^ attempt` and retries
unless this was the last attempt; any other exception fails immediately.
Returns (success, fetches performed, backoff sleeps).  A zero-retry call
falls off the loop (the source then returns `None`, i.e. falsy). -/
def bulkDlLoop (att : Nat → BulkOutcome) : Nat → Nat → Bool × Nat × List Nat
  | _, 0 => (false, 0, [])
  | a, fuel + 1 =>
      match att a with
      | BulkOutcome.ok => (true, 1, [])
      | BulkOutcome.urlErr _ =>
          if fuel ≠ 0 then
            let r := bulkDlLoop att (a + 1) fuel
            (r.1, r.2.1 + 1, 2 ^ a :: r.2.2)
          else (false, 1, [])
      | BulkOutcome.exc _ => (false, 1, [])

/-- `PRISMDownloader.download_file` with retry bound `retries`. -/
def bulkDownloadFile (att : Nat → BulkOutcome) (retries : Nat) : Bool × Nat × List Nat :=
  bulkDlLoop att 0 retries

/-- Per-item outcome of `PRISMDownloader.download_batch`. -/
structure BulkRes where
  skipped : Bool
  success : Bool
  urlCalls : Nat
deriving DecidableEq

/-- The per-item logic of `download_batch` (lines 286–295): if the
destination path exists the item is recorded as downloaded and no task is
submitted (no size check); otherwise `download_file` runs with 3 retries. -/
def bulkProcessItem (fs : FileState) (att : Nat → BulkOutcome) : BulkRes :=
  if fs.present then ⟨true, true, 0⟩
  else
    let r := bulkDownloadFile att 3
    ⟨false, r.1, r.2.1⟩

/-! ## Raster decoder: `process_prism_data.py` -/

/-- One entry of `GRID_SPECS`: column/row counts, corner coordinates, cell
size and nodata sentinel for a resolution tier.  Machine floats are
idealised as exact rationals. -/
structure GridSpec where
  ncols : Nat
  nrows : Nat
  xllcorner : ℚ
  yllcorner : ℚ
  cellsize : ℚ
  nodataValue : ℚ
deriving DecidableEq

/-- `GRID_SPECS['4km']`. -/
def spec4km : GridSpec :=
  ⟨1405, 621, -125.0208333, 24.0625, 0.04166666666667, -9999.0⟩

/-- `GRID_SPECS['800m']`. -/
def spec800m : GridSpec :=
  ⟨7025, 3105, -125.0208333, 24.0625, 0.00833333333333, -9999.0⟩

/-- The sidecar `.hdr` dictionary produced by `read_bil_header`, restricted
to the three keys `read_bil_data` consults (`ncols`, `nrows`,
`nodata_value`); a missing key is `none`. -/
structure Header where
  ncols : Option Nat
  nrows : Option Nat
  nodataValue : Option ℚ
deriving DecidableEq

/-- Column count used by `read_bil_data`: the header value when a sidecar
header exists and carries the key, else the `GridSpec` default. -/
def resolvedNcols (s : GridSpec) (hdr : Option Header) : Nat :=
  match hdr with
  | none => s.ncols
  | some h => h.ncols.getD s.ncols

/-- Row count used by `read_bil_data`. -/
def resolvedNrows (s : GridSpec) (hdr : Option Header) : Nat :=
  match hdr with
  | none => s.nrows
  | some h => h.nrows.getD s.nrows

/-- Nodata sentinel used by `read_bil_data`. -/
def resolvedNodata (s : GridSpec) (hdr : Option Header) : ℚ :=
  match hdr with
  | none => s.nodataValue
  | some h => h.nodataValue.getD s.nodataValue

/-- Row-major reshape of a flat payload into `nrows` rows of `ncols` cells,
cell `(i, j)` holding payload element `i * ncols + j` (the numpy C-order
`reshape((nrows, ncols))` on a payload of exactly matching length). -/
def reshapeGrid (nrows ncols : Nat) (p : List ℚ) : List (List ℚ) :=
  (List.range nrows).map (fun i =>
    (List.range ncols).map (fun j => p.getD (i * ncols + j) 0))

/-- `np.ma.masked_where(data == nodata, data)`: cells equal to the nodata
sentinel become `none` (masked), all others stay `some`. -/
def maskNodata (nodata : ℚ) (g : List (List ℚ)) : List (List (Option ℚ)) :=
  g.map (fun row => row.map (fun v => if v = nodata then none else some v))

/-- `read_bil_data` (lines 118–156): resolve dimensions and sentinel from
the optional sidecar header, require the payload (the dense sequence of
4-byte little-endian floats already decoded to values) to hold exactly
`nrows * ncols` elements — a mismatch raises (numpy's reshape error, the
spec's FormatError) — then reshape row-major and mask nodata cells. -/
def read_bil_data (s : GridSpec) (hdr : Option Header) (payload : List ℚ) :
    Except String (List (List (Option ℚ))) :=
  let ncols := resolvedNcols s hdr
  let nrows := resolvedNrows s hdr
  if payload.length = nrows * ncols then
    Except.ok (maskNodata (resolvedNodata s hdr) (reshapeGrid nrows ncols payload))
  else Except.error "cannot reshape array"

/-- Numeric value of a digit string (most significant first). -/
def digitsVal (s : List Char) : Nat :=
  s.foldl (fun n c => n * 10 + (c.toNat - 48)) 0

/-- The host language's `int(str)` conversion: an optional sign followed by
decimal digits parses to an integer, anything else raises.  (Surrounding
whitespace and digit-group separators accepted by the host parser are not
modelled; the date tokens this is applied to never contain them.) -/
def pyInt (s : List Char) : Except String Int :=
  let core := match s with
    | c :: rest => if c = '-' ∨ c = '+' then rest else s
    | [] => s
  if core.length ≠ 0 ∧ core.all Char.isDigit then
    Except.ok (match s with
      | '-' :: _ => -(digitsVal core : Int)
      | _ => (digitsVal core : Int))
  else Except.error ("invalid literal for int: " ++ String.mk s)

/-- The metadata dictionary built by `parse_filename`; every key is
optional since the source populates keys conditionally. -/
structure Metadata where
  source : Option String
  varName : Option String
  stability : Option String
  resolutionTag : Option String
  dateStr : Option String
  temporal : Option String
  year : Option Int
  month : Option Int
  day : Option Int
deriving DecidableEq

/-- The empty metadata dictionary. -/
def emptyMetadata : Metadata :=
  ⟨none, none, none, none, none, none, none, none, none⟩

/-- `parse_filename` (lines 209–249): strip every occurrence of `".bil"`,
split on `"_"`; with at least five tokens record the positional fields and
decode the date token by length (6 → monthly year/month, 8 → daily
year/month/day, 4 → annual year, other lengths add no date fields); a
non-numeric date slice raises (`Except.error`).  With fewer than five
tokens the empty dictionary is returned — no error is raised. -/
def parse_filename (filename : String) : Except String Metadata :=
  let parts := splitOnChar '_' (replaceAll filename.toList ".bil".toList [])
  if 5 ≤ parts.length then
    let dateStr := parts.getD 4 []
    let base : Metadata :=
      { emptyMetadata with
          source := some (String.mk (parts.getD 0 [])),
          varName := some (String.mk (parts.getD 1 [])),
          stability := some (String.mk (parts.getD 2 [])),
          resolutionTag := some (String.mk (parts.getD 3 [])),
          dateStr := some (String.mk dateStr) }
    if dateStr.length = 6 then
      match pyInt (dateStr.take 4), pyInt ((dateStr.drop 4).take 2) with
      | Except.error e, _ => Except.error e
      | _, Except.error e => Except.error e
      | Except.ok y, Except.ok mo =>
          Except.ok { base with temporal := some "monthly", year := some y, month := some mo }
    else if dateStr.length = 8 then
      match pyInt (dateStr.take 4), pyInt ((dateStr.drop 4).take 2),
            pyInt ((dateStr.drop 6).take 2) with
      | Except.error e, _, _ => Except.error e
      | _, Except.error e, _ => Except.error e
      | _, _, Except.error e => Except.error e
      | Except.ok y, Except.ok mo, Except.ok d =>
          Except.ok { base with temporal := some "daily",
                                year := some y, month := some mo, day := some d }
    else if dateStr.length = 4 then
      match pyInt dateStr with
      | Except.error e => Except.error e
      | Except.ok y => Except.ok { base with temporal := some "annual", year := some y }
    else Except.ok base
  else Except.ok emptyMetadata

/-- One file extracted from a raster archive: its base name, its flat
binary payload (as decoded float values) and its optional sidecar header. -/
structure Entry where
  base : String
  payload : List ℚ
  sidecar : Option Header
deriving DecidableEq

/-- A path handed to `read_prism_dataset`, dispatched on its extension:
an archive with its extracted entries, a bare flat-binary file, or a file
with any other extension. -/
inductive PFile where
  | zipF (name : String) (entries : List Entry)
  | bilF (e : Entry)
  | otherF (suffix : String)
deriving DecidableEq

/-- `Path(name).suffix == '.bil'`: the name ends in `".bil"` and has a
nonempty stem. -/
def isBilName (n : String) : Bool :=
  ".bil".toList.isSuffixOf n.toList && n ≠ ".bil"

/-- The dictionary returned by `read_prism_dataset`: decoded grid, filename
metadata, and the grid specification merged in by `metadata.update`. -/
structure PrismDataset where
  data : List (List (Option ℚ))
  meta : Metadata
  specs : GridSpec
deriving DecidableEq

/-- Decode one flat-binary entry: `read_bil_data` on its payload, then
`parse_filename` on its base name (whose failure propagates). -/
def readBilEntry (s : GridSpec) (e : Entry) : Except String PrismDataset :=
  match read_bil_data s e.sidecar e.payload with
  | Except.error msg => Except.error msg
  | Except.ok d =>
      match parse_filename e.base with
      | Except.error msg => Except.error msg
      | Except.ok m => Except.ok ⟨d, m, s⟩

/-- `read_prism_dataset` (lines 158–207): a `.zip` path is extracted and
the entries with suffix `.bil` are collected — an empty list raises, while
otherwise `bil_files[0]`, the first candidate, is decoded (no arity check);
a `.bil` path is decoded directly; any other extension raises. -/
def read_prism_dataset (s : GridSpec) (f : PFile) : Except String PrismDataset :=
  match f with
  | PFile.zipF _ entries =>
      match entries.filter (fun e => isBilName e.base) with
      | [] => Except.error "No .bil file found"
      | b :: _ => readBilEntry s b
  | PFile.bilF e => readBilEntry s e
  | PFile.otherF sfx => Except.error ("Unsupported file format: " ++ sfx)

/-! ## Zarr converter: `prism_to_zarr.py` -/

/-- The longitude coordinate array built in `PRISMToZarrConverter.__init__`:
`np.arange(xllcorner, xllcorner + ncols * cellsize, cellsize)[:ncols]`,
which with exact arithmetic is `xllcorner + i * cellsize` for
`i = 0, …, ncols - 1`, ascending. -/
def lonCoord (s : GridSpec) : List ℚ :=
  (List.range s.ncols).map (fun i : Nat => s.xllcorner + (i : ℚ) * s.cellsize)

/-- The latitude coordinate array: the analogous `np.arange` over rows,
then reversed (`self.lat[::-1]`) into descending, north-first order. -/
def latCoord (s : GridSpec) : List ℚ :=
  ((List.range s.nrows).map (fun j : Nat => s.yllcorner + (j : ℚ) * s.cellsize)).reverse

/-- `read_bil_file` (lines 84–104): delegate to
`processor.read_prism_dataset` and return the data and metadata untouched —
explicitly without flipping the data grid. -/
def read_bil_file (s : GridSpec) (f : PFile) :
    Except String (List (List (Option ℚ)) × Metadata) :=
  (read_prism_dataset s f).map (fun d => (d.data, d.meta))

/-- One input file of `process_time_series`, after the directory glob:
its base name and whether `read_bil_file` plus `create_xarray_dataset`
succeed on it (decode success abstracts the raster contents, of which only
the time stamp reaches the store's time coordinate). -/
structure InFile where
  name : String
  decodeOk : Bool
deriving DecidableEq

/-- Gregorian leap-year rule, as implemented by the host datetime library. -/
def isLeap (y : Int) : Bool :=
  y % 4 = 0 && (y % 100 ≠ 0 || y % 400 = 0)

/-- Number of days of month `m` in year `y`. -/
def monthDays (y m : Int) : Int :=
  if m = 2 then (if isLeap y then 29 else 28)
  else if m = 4 ∨ m = 6 ∨ m = 9 ∨ m = 11 then 30
  else 31

/-- Validity domain of the host `datetime(year, month, day)` constructor,
which raises outside it. -/
def validDate (y m d : Int) : Bool :=
  1 ≤ y && y ≤ 9999 && 1 ≤ m && m ≤ 12 && 1 ≤ d && d ≤ monthDays y m

/-- Order-preserving encoding of a valid calendar date (months < 100,
days < 100, so this agrees with the datetime order). -/
def encodeDate (y m d : Int) : Nat :=
  (y * 10000 + m * 100 + d).toNat

/-- The date-extraction step of `process_time_series` (lines 213–223):
parse the filename; the item yields a date only when parsing does not
raise, the metadata has `year`, `month` and `day`, and
`datetime(year, month, day)` does not raise.  Otherwise the surrounding
`try`/`except` and key check drop the item. -/
def fileDateOf (f : InFile) : Option Nat :=
  match parse_filename f.name with
  | Except.error _ => none
  | Except.ok m =>
      match m.year, m.month, m.day with
      | some y, some mo, some d =>
          if validDate y mo d then some (encodeDate y mo d) else none
      | _, _, _ => none

/-- `files_to_process`: the globbed files (in directory-listing order) that
yield a date within `[startD, endD]`, paired with that date. -/
def filesToProcess (files : List InFile) (startD endD : Nat) :
    List (InFile × Nat) :=
  files.filterMap (fun f =>
    match fileDateOf f with
    | none => none
    | some d => if startD ≤ d ∧ d ≤ endD then some (f, d) else none)

/-- The time stamps of the successfully decoded rasters of one batch, in
file order (the `datasets` list collected in the batch loop). -/
def succDates (b : List (InFile × Nat)) : List Nat :=
  (b.filter (fun p => p.1.decodeOk)).map (fun p => p.2)

/-- Slicing worker for `chunksOf`, structurally recursive on an iteration
budget that the wrapper sets to the list length (each step removes at
least one element when `0 < n`). -/
def chunksOfAux (n : Nat) : Nat → List α → List (List α)
  | _, [] => []
  | 0, _ => []
  | fuel + 1, x :: xs => (x :: xs).take n :: chunksOfAux n fuel ((x :: xs).drop n)

/-- Successive slices `l[i : i + n]` of the batch loop
`range(0, len(l), n)`; a zero step raises in the host, here yielding no
batches. -/
def chunksOf (n : Nat) (l : List α) : List (List α) :=
  if n = 0 then [] else chunksOfAux n l.length l

/-- The write of one batch: its successfully decoded time stamps sorted
ascending (`sortby('time')`), or nothing when the batch holds no valid
dataset (`continue`). -/
def writeBatch (b : List (InFile × Nat)) : Option (List Nat) :=
  let ds := List.insertionSort (· ≤ ·) (succDates b)
  if ds = [] then none else some ds

/-- The per-batch writes of one `process_time_series` call, in batch
order. -/
def runWrites (files : List InFile) (startD endD bd : Nat) : List (List Nat) :=
  (chunksOf bd (filesToProcess files startD endD)).filterMap writeBatch

/-- Observable store events of one `process_time_series` call. -/
inductive Ev where
  | write (dates : List Nat)
  | consolidate
deriving DecidableEq

/-- The event trace of `process_time_series` (lines 231–291): nothing when
no file survives the date filter (early return); otherwise one write per
non-empty batch, and — guarded by the `data_written` flag — exactly one
final `zarr.consolidate_metadata` call when at least one write happened. -/
def runEvents (files : List InFile) (startD endD bd : Nat) : List Ev :=
  let ftp := filesToProcess files startD endD
  if ftp = [] then []
  else
    let ws := runWrites files startD endD bd
    ws.map Ev.write ++ (if ws = [] then [] else [Ev.consolidate])

/-- The store's time coordinate after one `process_time_series` call.
`t0` is the coordinate of the pre-existing store (`none` when the store
does not exist): the first batch creates the store in mode `'w'` when it
did not exist, and every other write appends along `time`, so the final
coordinate is the prior coordinate followed by each written batch's sorted
dates in batch order. -/
def runCoord (t0 : Option (List Nat)) (files : List InFile)
    (startD endD bd : Nat) : List Nat :=
  let ftp := filesToProcess files startD endD
  if ftp = [] then t0.getD []
  else t0.getD [] ++ (runWrites files startD endD bd).flatten

/-- Classification of one attempt outcome as transient (retried): any
error other than HTTP 404.  Success is neither transient nor terminal
failure; 404 is terminal. -/
def isTransient : Outcome → Bool
  | Outcome.ok => false
  | Outcome.httpErr code => !(code == 404)
  | Outcome.exc _ => true

/-! ## Lemmas about the daily downloader's retry loop -/

/-- When the destination file already passes the size check, the loop
returns immediately without fetching. -/
theorem dlLoop_fileOk (fs : FileState) (att : Nat → Outcome) (a fuel : Nat)
    (hok : fileOk fs = true) (hf : 0 < fuel) :
    dlLoop fs att a fuel = ⟨true, "Already downloaded", 0, []⟩ := by
  cases fuel with
  | zero => omega
  | succ n => simp [dlLoop, hok]

/-- A successful fetch (file not already valid) always reports
`"Success"`. -/
theorem dlLoop_success_message (fs : FileState) (att : Nat → Outcome)
    (hok : fileOk fs = false) :
    ∀ fuel a, (dlLoop fs att a fuel).success = true →
      (dlLoop fs att a fuel).message = "Success" := by
  intro fuel
  induction fuel with
  | zero => intro a h; simp [dlLoop] at h
  | succ n ih =>
      intro a h
      simp only [dlLoop, hok, Bool.false_eq_true, if_false] at h ⊢
      cases hatt : att a with
      | ok => simp [hatt]
      | httpErr code =>
          simp only [hatt] at h ⊢
          by_cases hc : code = 404
          · simp [hc] at h
          · by_cases hn : n = 0
            · simp [hc, hn] at h
            · simp only [hc, hn, if_false] at h ⊢
              exact ih (a + 1) h
      | exc msg =>
          simp only [hatt] at h ⊢
          by_cases hn : n = 0
          · simp [hn] at h
          · simp only [hn, if_false] at h ⊢
            exact ih (a + 1) h

/-- The loop performs at most `fuel` fetches. -/
theorem dlLoop_calls_le (fs : FileState) (att : Nat → Outcome) :
    ∀ fuel a, (dlLoop fs att a fuel).urlCalls ≤ fuel := by
  intro fuel
  induction fuel with
  | zero => intro a; simp [dlLoop]
  | succ n ih =>
      intro a
      simp only [dlLoop]
      by_cases hok : fileOk fs
      · simp [hok]
      · simp only [hok, if_false]
        cases att a with
        | ok => simp
        | httpErr code =>
            by_cases hc : code = 404
            · simp [hc]
            · by_cases hn : n = 0
              · simp [hc, hn]
              · simp only [hc, hn, if_false]
                exact Nat.succ_le_succ (ih (a + 1))
        | exc msg =>
            by_cases hn : n = 0
            · simp [hn]
            · simp only [hn, if_false]
              exact Nat.succ_le_succ (ih (a + 1))

/-- If the loop actually starts (positive fuel, file not already valid) it
performs at least one fetch. -/
theorem dlLoop_calls_pos (fs : FileState) (att : Nat → Outcome)
    (hok : fileOk fs = false) (a fuel : Nat) (hf : 0 < fuel) :
    1 ≤ (dlLoop fs att a fuel).urlCalls := by
  cases fuel with
  | zero => omega
  | succ n =>
      simp only [dlLoop, hok, Bool.false_eq_true, if_false]
      cases att a with
      | ok => simp
      | httpErr code =>
          by_cases hc : code = 404
          · simp [hc]
          · by_cases hn : n = 0
            · simp [hc, hn]
            · simp [hc, hn]
      | exc msg =>
          by_cases hn : n = 0
          · simp [hn]
          · simp [hn]

/-- Shifting the attempt offset through the backoff sequence. -/
theorem range_pow_shift (a m : Nat) :
    2 ^ a :: (List.range m).map (fun i => 2 ^ (a + 1 + i))
      = (List.range (m + 1)).map (fun i => 2 ^ (a + i)) := by
  rw [List.range_succ_eq_map, List.map_cons, List.map_map, List.cons_eq_cons]
  refine ⟨by simp, List.map_congr_left ?_⟩
  intro i _
  show 2 ^ (a + 1 + i) = 2 ^ (a + (i + 1))
  congr 1
  omega

/-- The backoff sleeps are exactly `2 ^ attempt` for each non-final failed
attempt: one sleep fewer than the number of fetches, doubling each time. -/
theorem dlLoop_delays (fs : FileState) (att : Nat → Outcome) :
    ∀ fuel a, (dlLoop fs att a fuel).delays
      = (List.range ((dlLoop fs att a fuel).urlCalls - 1)).map (fun i => 2 ^ (a + i)) := by
  intro fuel
  induction fuel with
  | zero => intro a; simp [dlLoop]
  | succ n ih =>
      intro a
      cases hok : fileOk fs with
      | true => simp [dlLoop, hok]
      | false =>
          cases hatt : att a with
          | ok => simp [dlLoop, hok, hatt]
          | httpErr code =>
              by_cases hc : code = 404
              · simp [dlLoop, hok, hatt, hc]
              · by_cases hn : n = 0
                · simp [dlLoop, hok, hatt, hc, hn]
                · have hpos := dlLoop_calls_pos fs att hok (a + 1) n
                    (Nat.pos_of_ne_zero hn)
                  obtain ⟨m, hm⟩ : ∃ m, (dlLoop fs att (a + 1) n).urlCalls = m + 1 :=
                    ⟨(dlLoop fs att (a + 1) n).urlCalls - 1, by omega⟩
                  simp [dlLoop, hok, hatt, hc, hn, ih (a + 1), hm, range_pow_shift]
          | exc msg =>
              by_cases hn : n = 0
              · simp [dlLoop, hok, hatt, hn]
              · have hpos := dlLoop_calls_pos fs att hok (a + 1) n
                  (Nat.pos_of_ne_zero hn)
                obtain ⟨m, hm⟩ : ∃ m, (dlLoop fs att (a + 1) n).urlCalls = m + 1 :=
                  ⟨(dlLoop fs att (a + 1) n).urlCalls - 1, by omega⟩
                simp [dlLoop, hok, hatt, hn, ih (a + 1), hm, range_pow_shift]

/-- A 404 at attempt `k` stops the loop: no fetch beyond attempt `k` ever
happens, whatever the fuel. -/
theorem dlLoop_404 (fs : FileState) (att : Nat → Outcome) :
    ∀ fuel a k, a ≤ k → att k = Outcome.httpErr 404 →
      (dlLoop fs att a fuel).urlCalls ≤ k + 1 - a := by
  intro fuel
  induction fuel with
  | zero => intro a k _ _; simp [dlLoop]
  | succ n ih =>
      intro a k hak h404
      cases hok : fileOk fs with
      | true => simp [dlLoop, hok]
      | false =>
          by_cases heq : a = k
          · subst heq
            simp [dlLoop, hok, h404]
          · have hlt : a < k := lt_of_le_of_ne hak heq
            cases hatt : att a with
            | ok => simp [dlLoop, hok, hatt]; omega
            | httpErr code =>
                by_cases hc : code = 404
                · simp [dlLoop, hok, hatt, hc]; omega
                · by_cases hn : n = 0
                  · simp [dlLoop, hok, hatt, hc, hn]; omega
                  · have hrec := ih (a + 1) k hlt h404
                    simp [dlLoop, hok, hatt, hc, hn]
                    omega
            | exc msg =>
                by_cases hn : n = 0
                · simp [dlLoop, hok, hatt, hn]; omega
                · have hrec := ih (a + 1) k hlt h404
                  simp [dlLoop, hok, hatt, hn]
                  omega

/-- `"Success"` does not contain `"Already"`. -/
theorem containsSub_success_already : containsSub "Success" "Already" = false := by decide

/-- `"Already downloaded"` contains `"Already"`. -/
theorem containsSub_already :
    containsSub "Already downloaded" "Already" = true := by decide

/-! ## Claim C4: per-URL retry policy -/

/-- **C4** — For every single-URL fetch (destination not already valid):
at most 3 attempts are made; the backoff delays are `2 ^ attempt`, doubling
each attempt; a fetch transient on the first two attempts and successful on
the third reports success with message `"Success"` after sleeps `[1, 2]`;
and a 404 at attempt `k` is terminal — no fetch beyond attempt `k` occurs
on this URL. -/
theorem c4_retry_policy (fs : FileState) (att : Nat → Outcome)
    (hfile : fileOk fs = false) :
    (downloadFile fs att 3).urlCalls ≤ 3
    ∧ (downloadFile fs att 3).delays
        = (List.range ((downloadFile fs att 3).urlCalls - 1)).map (fun i => 2 ^ i)
    ∧ (isTransient (att 0) = true → isTransient (att 1) = true → att 2 = Outcome.ok →
        downloadFile fs att 3 = ⟨true, "Success", 3, [1, 2]⟩)
    ∧ (∀ k, att k = Outcome.httpErr 404 →
        (downloadFile fs att 3).urlCalls ≤ k + 1) := by
  refine ⟨dlLoop_calls_le fs att 3 0, ?_, ?_, ?_⟩
  · have h := dlLoop_delays fs att 3 0
    simpa using h
  · intro h0 h1 h2
    cases hatt0 : att 0 with
    | ok => rw [hatt0] at h0; simp [isTransient] at h0
    | exc m0 =>
        cases hatt1 : att 1 with
        | ok => rw [hatt1] at h1; simp [isTransient] at h1
        | exc m1 =>
            simp [downloadFile, dlLoop, hfile, hatt0, hatt1, h2]
        | httpErr c1 =>
            have hc1 : ¬ c1 = 404 := by
              rw [hatt1] at h1; simpa [isTransient] using h1
            simp [downloadFile, dlLoop, hfile, hatt0, hatt1, h2, hc1]
    | httpErr c0 =>
        have hc0 : ¬ c0 = 404 := by
          rw [hatt0] at h0; simpa [isTransient] using h0
        cases hatt1 : att 1 with
        | ok => rw [hatt1] at h1; simp [isTransient] at h1
        | exc m1 =>
            simp [downloadFile, dlLoop, hfile, hatt0, hatt1, h2, hc0]
        | httpErr c1 =>
            have hc1 : ¬ c1 = 404 := by
              rw [hatt1] at h1; simpa [isTransient] using h1
            simp [downloadFile, dlLoop, hfile, hatt0, hatt1, h2, hc0, hc1]
  · intro k hk
    have h := dlLoop_404 fs att 3 0 k (Nat.zero_le k) hk
    simpa using h

/-- Witness for C4: a file of size 0, transient HTTP 500 on the first two
attempts, success on the third. -/
theorem c4_witness :
    fileOk ⟨false, 0⟩ = false
    ∧ downloadFile ⟨false, 0⟩
        (fun k => if k < 2 then Outcome.httpErr 500 else Outcome.ok) 3
        = ⟨true, "Success", 3, [1, 2]⟩ :=
  ⟨by decide,
   (c4_retry_policy ⟨false, 0⟩
      (fun k => if k < 2 then Outcome.httpErr 500 else Outcome.ok)
      (by decide)).2.2.1 (by decide) (by decide) (by decide)⟩

/-! ## Claim C2: fallback dispatch -/

/-- **C2 (amended)** — The fallback URL is attempted iff the primary fetch
failed with a message containing `"404"`; and a task is reported failed iff
the primary failed and either its failure was not `404`-classified (no
fallback is tried, contrary to the original claim) or the fallback also
failed. -/
theorem c2_amended_fallback (fs : FileState) (pa fa : Nat → Outcome)
    (dateStr varName : String) :
    ((downloadDateVariable fs pa fa dateStr varName).2 = true
      ↔ ((downloadFile fs pa 3).success = false
          ∧ containsSub (downloadFile fs pa 3).message "404" = true))
    ∧ ((downloadDateVariable fs pa fa dateStr varName).1.success = false
      ↔ ((downloadFile fs pa 3).success = false
          ∧ (containsSub (downloadFile fs pa 3).message "404" = false
             ∨ (downloadFile fs fa 3).success = false))) := by
  cases hs1 : (downloadFile fs pa 3).success with
  | true => simp [downloadDateVariable, hs1]
  | false =>
      cases h4 : containsSub (downloadFile fs pa 3).message "404" with
      | true =>
          cases hs2 : (downloadFile fs fa 3).success with
          | true => simp [downloadDateVariable, hs1, h4, hs2]
          | false => simp [downloadDateVariable, hs1, h4, hs2]
      | false => simp [downloadDateVariable, hs1, h4]

/-- Counterexample to C2 as stated: with the primary URL failing with a
transient HTTP 500 on every attempt and a fallback URL that would succeed
immediately, the task is reported failed without the fallback ever being
attempted. -/
theorem c2_counterexample :
    ((downloadDateVariable ⟨false, 0⟩ (fun _ => Outcome.httpErr 500)
        (fun _ => Outcome.ok) "20010101" "ppt").1.success = false)
    ∧ ((downloadDateVariable ⟨false, 0⟩ (fun _ => Outcome.httpErr 500)
        (fun _ => Outcome.ok) "20010101" "ppt").2 = false)
    ∧ (downloadFile ⟨false, 0⟩ (fun _ => Outcome.ok) 3).success = true := by
  decide

/-! ## Claim C10: FetchResult path/success invariant -/

/-- **C10** — The result of a task carries the destination path exactly
when it succeeded: `path` is `some` iff `success` is true, and a failed
task carries `none` together with its failure message. -/
theorem c10_result_path (fs : FileState) (pa fa : Nat → Outcome)
    (dateStr varName : String) :
    ((downloadDateVariable fs pa fa dateStr varName).1.path
        = if (downloadDateVariable fs pa fa dateStr varName).1.success
          then some (outPathOf dateStr varName) else none)
    ∧ ((downloadDateVariable fs pa fa dateStr varName).1.path.isSome
        = (downloadDateVariable fs pa fa dateStr varName).1.success) := by
  cases hs1 : (downloadFile fs pa 3).success with
  | true => simp [downloadDateVariable, hs1]
  | false =>
      cases h4 : containsSub (downloadFile fs pa 3).message "404" with
      | true =>
          cases hs2 : (downloadFile fs fa 3).success with
          | true => simp [downloadDateVariable, hs1, h4, hs2]
          | false => simp [downloadDateVariable, hs1, h4, hs2]
      | false => simp [downloadDateVariable, hs1, h4]

/-! ## Claim C3: skip-if-present classification -/

/-- A daily-downloader task is classified "already exists" exactly when the
destination file passes the `exists ∧ size > 1000` check. -/
theorem dailySkipped_eq (fs : FileState) (pa fa : Nat → Outcome)
    (dateStr varName : String) :
    dailySkipped fs pa fa dateStr varName = fileOk fs := by
  cases hok : fileOk fs with
  | true =>
      have h1 : downloadFile fs pa 3 = ⟨true, "Already downloaded", 0, []⟩ :=
        dlLoop_fileOk fs pa 0 3 hok (by norm_num)
      simp [dailySkipped, downloadDateVariable, h1, containsSub_already]
  | false =>
      cases hs1 : (downloadFile fs pa 3).success with
      | true =>
          have hm : (downloadFile fs pa 3).message = "Success" :=
            dlLoop_success_message fs pa hok 3 0 hs1
          simp [dailySkipped, downloadDateVariable, hs1, hm,
            containsSub_success_already, hok]
      | false =>
          cases h4 : containsSub (downloadFile fs pa 3).message "404" with
          | true =>
              cases hs2 : (downloadFile fs fa 3).success with
              | true =>
                  have hm : (downloadFile fs fa 3).message = "Success" :=
                    dlLoop_success_message fs fa hok 3 0 hs2
                  simp [dailySkipped, downloadDateVariable, hs1, h4, hs2, hm,
                    containsSub_success_already, hok]
              | false =>
                  simp [dailySkipped, downloadDateVariable, hs1, h4, hs2, hok]
          | false =>
              simp [dailySkipped, downloadDateVariable, hs1, h4, hok]

/-- **C3 (amended)** — In the daily all-variables downloader a task is
classified "already fetched" iff its destination exists with size
exceeding 1000 bytes, and such a task performs no fetch; the bulk
downloader, however, skips on mere existence, with no size threshold.
Re-running the daily downloader over a tree of valid files performs zero
fetches. -/
theorem c3_amended_skip (fs : FileState) (pa fa : Nat → Outcome)
    (dateStr varName : String) (att : Nat → BulkOutcome) :
    (dailySkipped fs pa fa dateStr varName = fileOk fs)
    ∧ (fileOk fs = true → dailyUrlCalls fs pa fa = 0)
    ∧ ((bulkProcessItem fs att).skipped = fs.present)
    ∧ (fs.present = true → (bulkProcessItem fs att).urlCalls = 0)
    ∧ (∀ tasks : List FileState, (∀ t ∈ tasks, fileOk t = true) →
        (tasks.map (fun t => dailyUrlCalls t pa fa)).sum = 0) := by
  refine ⟨dailySkipped_eq fs pa fa dateStr varName, ?_, ?_, ?_, ?_⟩
  · intro h
    have h1 : downloadFile fs pa 3 = ⟨true, "Already downloaded", 0, []⟩ :=
      dlLoop_fileOk fs pa 0 3 h (by norm_num)
    simp [dailyUrlCalls, h1]
  · cases hp : fs.present <;> simp [bulkProcessItem, hp]
  · intro hp
    simp [bulkProcessItem, hp]
  · intro tasks
    induction tasks with
    | nil => intro _; simp
    | cons t ts ih =>
        intro htasks
        have ht := htasks t (by simp)
        have h1 : downloadFile t pa 3 = ⟨true, "Already downloaded", 0, []⟩ :=
          dlLoop_fileOk t pa 0 3 ht (by norm_num)
        have h0 : dailyUrlCalls t pa fa = 0 := by simp [dailyUrlCalls, h1]
        simp only [List.map_cons, List.sum_cons, h0, Nat.zero_add]
        exact ih (fun x hx => htasks x (List.mem_cons_of_mem t hx))

/-- Counterexample to C3 as stated: the bulk downloader classifies an
existing zero-byte destination as already fetched (skips it, performing no
fetch) even though its size does not exceed 1000 bytes. -/
theorem c3_counterexample :
    (bulkProcessItem ⟨true, 0⟩ (fun _ => BulkOutcome.ok)).skipped = true
    ∧ (bulkProcessItem ⟨true, 0⟩ (fun _ => BulkOutcome.ok)).urlCalls = 0
    ∧ fileOk ⟨true, 0⟩ = false := by decide

/-- Witness for C3 (amended): a valid 2000-byte file is skipped with zero
fetches by the daily downloader. -/
theorem c3_witness :
    fileOk ⟨true, 2000⟩ = true
    ∧ dailyUrlCalls ⟨true, 2000⟩ (fun _ => Outcome.ok) (fun _ => Outcome.ok) = 0 :=
  ⟨by decide,
   (c3_amended_skip ⟨true, 2000⟩ (fun _ => Outcome.ok) (fun _ => Outcome.ok)
      "20010101" "ppt" (fun _ => BulkOutcome.ok)).2.1 (by decide)⟩

/-! ## Lemmas about the materialization run -/

/-- `succDates` distributes over batch concatenation. -/
theorem succDates_append (a b : List (InFile × Nat)) :
    succDates (a ++ b) = succDates a ++ succDates b := by
  simp [succDates, List.filter_append]

/-- Insertion sort returns the empty list only on the empty list. -/
theorem insertionSort_nil_iff (ds : List Nat) :
    List.insertionSort (· ≤ ·) ds = [] ↔ ds = [] := by
  constructor
  · intro h
    have hlen := List.length_insertionSort (· ≤ ·) ds
    rw [h] at hlen
    exact List.length_eq_zero.mp hlen.symm
  · intro h
    subst h
    rfl

/-- A batch has no successfully decoded raster iff every item failed. -/
theorem succDates_nil_iff (b : List (InFile × Nat)) :
    succDates b = [] ↔ ∀ p ∈ b, p.1.decodeOk = false := by
  simp [succDates]

/-- Rejoining the batch slices recovers the original worklist. -/
theorem chunksOfAux_flatten {α : Type} (n : Nat) (hn : 0 < n) :
    ∀ fuel (l : List α), l.length ≤ fuel → (chunksOfAux n fuel l).flatten = l := by
  intro fuel
  induction fuel with
  | zero =>
      intro l hl
      cases l with
      | nil => rfl
      | cons x xs => simp at hl
  | succ m ih =>
      intro l hl
      cases l with
      | nil => rfl
      | cons x xs =>
          simp only [chunksOfAux, List.flatten_cons]
          rw [ih ((x :: xs).drop n) ?_, List.take_append_drop]
          simp only [List.length_drop, List.length_cons]
          simp only [List.length_cons] at hl
          omega

/-- `chunksOf` version of the slicing decomposition. -/
theorem chunksOf_flatten {α : Type} (n : Nat) (hn : 0 < n) (l : List α) :
    (chunksOf n l).flatten = l := by
  unfold chunksOf
  rw [if_neg (Nat.pos_iff_ne_zero.mp hn)]
  exact chunksOfAux_flatten n hn l.length l le_rfl

/-- When the successful dates of a worklist are globally strictly
increasing, per-batch sorting is the identity and the concatenated writes
reproduce the worklist's successful dates. -/
theorem writes_flatten_of_sorted (bd : Nat) (hbd : 0 < bd) :
    ∀ fuel (l : List (InFile × Nat)), l.length ≤ fuel →
      List.Sorted (· < ·) (succDates l) →
      ((chunksOfAux bd fuel l).filterMap writeBatch).flatten = succDates l := by
  intro fuel
  induction fuel with
  | zero =>
      intro l hl _
      cases l with
      | nil => simp [chunksOfAux, succDates]
      | cons x xs => simp at hl
  | succ m ih =>
      intro l hl hs
      cases l with
      | nil => simp [chunksOfAux, succDates]
      | cons x xs =>
          simp only [chunksOfAux]
          have hdecomp : succDates (x :: xs)
              = succDates ((x :: xs).take bd) ++ succDates ((x :: xs).drop bd) := by
            rw [← succDates_append, List.take_append_drop]
          rw [hdecomp] at hs
          have hs1 : List.Sorted (· < ·) (succDates ((x :: xs).take bd)) :=
            (List.pairwise_append.mp hs).1
          have hs2 : List.Sorted (· < ·) (succDates ((x :: xs).drop bd)) :=
            (List.pairwise_append.mp hs).2.1
          have hsort : List.insertionSort (· ≤ ·) (succDates ((x :: xs).take bd))
              = succDates ((x :: xs).take bd) :=
            List.Sorted.insertionSort_eq (hs1.imp (fun h => le_of_lt h))
          have hdrop : ((x :: xs).drop bd).length ≤ m := by
            simp only [List.length_drop, List.length_cons]
            simp only [List.length_cons] at hl
            omega
          have hrest := ih ((x :: xs).drop bd) hdrop hs2
          by_cases hempty : succDates ((x :: xs).take bd) = []
          · have hnone : writeBatch ((x :: xs).take bd) = none := by
              unfold writeBatch
              rw [hsort, if_pos hempty]
            rw [List.filterMap_cons_none hnone]
            rw [hrest, hdecomp, hempty, List.nil_append]
          · have hsome : writeBatch ((x :: xs).take bd)
                = some (succDates ((x :: xs).take bd)) := by
              unfold writeBatch
              rw [hsort, if_neg hempty]
            rw [List.filterMap_cons_some hsome]
            rw [List.flatten_cons, hrest, hdecomp]

/-! ## Claim C1: time-coordinate invariant -/

/-- **C1 (amended)** — For a materialization run starting on a fresh store
whose in-range, successfully decoded dates are strictly increasing in file
order, the resulting time coordinate is exactly that date sequence:
strictly increasing, duplicate-free, with length the number of
successfully decoded rasters.  (The unrestricted claim is false: appends
and duplicate dates are written as-is — see the counterexample.) -/
theorem c1_amended_time_coord (files : List InFile) (startD endD bd : Nat)
    (hbd : 0 < bd)
    (hsorted : List.Sorted (· < ·) (succDates (filesToProcess files startD endD))) :
    runCoord none files startD endD bd = succDates (filesToProcess files startD endD)
    ∧ List.Sorted (· < ·) (runCoord none files startD endD bd)
    ∧ (runCoord none files startD endD bd).Nodup
    ∧ (runCoord none files startD endD bd).length
        = ((filesToProcess files startD endD).filter (fun p => p.1.decodeOk)).length := by
  have hmain : runCoord none files startD endD bd
      = succDates (filesToProcess files startD endD) := by
    by_cases hftp : filesToProcess files startD endD = []
    · simp [runCoord, hftp, succDates]
    · have h := writes_flatten_of_sorted bd hbd
        (filesToProcess files startD endD).length
        (filesToProcess files startD endD) le_rfl hsorted
      simp [runCoord, runWrites, chunksOf, hftp, Nat.pos_iff_ne_zero.mp hbd, h]
  refine ⟨hmain, ?_, ?_, ?_⟩
  · rw [hmain]; exact hsorted
  · rw [hmain]; exact hsorted.nodup
  · rw [hmain]; simp [succDates]

/-- Counterexample to C1 as stated: materializing one successfully decoded
raster into a store already holding the same date appends it again — the
time coordinate ends `[19810101, 19810101]`, duplicated, with length 2
though only one distinct raster was decoded. -/
theorem c1_counterexample :
    runCoord (some [19810101])
        [⟨"PRISM_ppt_stable_4kmD2_19810101_bil.zip", true⟩] 0 99999999 365
      = [19810101, 19810101]
    ∧ ¬ (runCoord (some [19810101])
        [⟨"PRISM_ppt_stable_4kmD2_19810101_bil.zip", true⟩] 0 99999999 365).Nodup := by
  refine ⟨by decide, by decide⟩

/-- Witness for C1 (amended): two files with increasing dates, batch size
1 (two batches), fresh store. -/
theorem c1_witness :
    (0 < 1
      ∧ List.Sorted (· < ·) (succDates (filesToProcess
          [⟨"PRISM_ppt_stable_4kmD2_19810101_bil.zip", true⟩,
           ⟨"PRISM_ppt_stable_4kmD2_19810102_bil.zip", true⟩] 0 99999999)))
    ∧ runCoord none
        [⟨"PRISM_ppt_stable_4kmD2_19810101_bil.zip", true⟩,
         ⟨"PRISM_ppt_stable_4kmD2_19810102_bil.zip", true⟩] 0 99999999 1
      = [19810101, 19810102] := by
  refine ⟨⟨by decide, by decide⟩, ?_⟩
  rw [(c1_amended_time_coord
    [⟨"PRISM_ppt_stable_4kmD2_19810101_bil.zip", true⟩,
     ⟨"PRISM_ppt_stable_4kmD2_19810102_bil.zip", true⟩] 0 99999999 1
    (by decide) (by decide)).1]
  decide

/-! ## Claim C7: malformed filenames are dropped, not fatal -/

/-- **C7 (amended)** — A filename that yields no usable date (a parse
error, or — contrary to the original claim — a quietly returned metadata
dictionary without date fields, as happens for filenames with fewer than
five tokens) is dropped from the worklist: the run over any surrounding
files produces exactly the worklist, store coordinate and event trace it
would produce without the item, so the enclosing run is never aborted. -/
theorem c7_amended_drop (pre post : List InFile) (f : InFile)
    (startD endD bd : Nat) (t0 : Option (List Nat))
    (hf : fileDateOf f = none) :
    filesToProcess (pre ++ f :: post) startD endD
        = filesToProcess (pre ++ post) startD endD
    ∧ runCoord t0 (pre ++ f :: post) startD endD bd
        = runCoord t0 (pre ++ post) startD endD bd
    ∧ runEvents (pre ++ f :: post) startD endD bd
        = runEvents (pre ++ post) startD endD bd := by
  have h1 : filesToProcess (pre ++ f :: post) startD endD
      = filesToProcess (pre ++ post) startD endD := by
    unfold filesToProcess
    rw [List.filterMap_append, List.filterMap_append,
      List.filterMap_cons_none (by simp [hf])]
  refine ⟨h1, ?_, ?_⟩
  · unfold runCoord runWrites
    rw [h1]
  · unfold runEvents runWrites
    rw [h1]

/-- Counterexample to C7 as stated: the malformed filename `"foo.bil"`
(one token, far outside the grammar) does not raise — parsing returns the
empty metadata dictionary, and the item is dropped only because the date
fields are absent. -/
theorem c7_counterexample :
    parse_filename "foo.bil" = Except.ok emptyMetadata
    ∧ emptyMetadata.year = none
    ∧ fileDateOf ⟨"foo.bil", true⟩ = none := by decide

/-- Witness for C7 (amended): a malformed file among a well-formed one
changes nothing in the resulting store coordinate. -/
theorem c7_witness :
    fileDateOf ⟨"foo.bil", true⟩ = none
    ∧ runCoord none
        [⟨"PRISM_ppt_stable_4kmD2_19810101_bil.zip", true⟩, ⟨"foo.bil", true⟩]
        0 99999999 365
      = runCoord none
        [⟨"PRISM_ppt_stable_4kmD2_19810101_bil.zip", true⟩] 0 99999999 365 :=
  ⟨by decide,
   (c7_amended_drop [⟨"PRISM_ppt_stable_4kmD2_19810101_bil.zip", true⟩] []
      ⟨"foo.bil", true⟩ 0 99999999 365 none (by decide)).2.1⟩

/-- A batch writes nothing iff it has no successfully decoded raster. -/
theorem writeBatch_none_iff (b : List (InFile × Nat)) :
    writeBatch b = none ↔ succDates b = [] := by
  unfold writeBatch
  by_cases h : List.insertionSort (· ≤ ·) (succDates b) = []
  · simp [h, (insertionSort_nil_iff (succDates b)).mp h]
  · simp [h]
    exact fun hs => h ((insertionSort_nil_iff (succDates b)).mpr hs)

/-! ## Claim C8: consolidation exactly once iff data written -/

/-- **C8** — In every materialization call, the metadata-consolidation
event occurs exactly once when some batch was written and not at all
otherwise; and a batch is written exactly when some in-range file decodes
successfully. -/
theorem c8_consolidation (files : List InFile) (startD endD bd : Nat)
    (hbd : 0 < bd) :
    ((runEvents files startD endD bd).count Ev.consolidate
        = if runWrites files startD endD bd = [] then 0 else 1)
    ∧ ((runWrites files startD endD bd ≠ [])
        ↔ ∃ p ∈ filesToProcess files startD endD, p.1.decodeOk = true) := by
  have hchunks := chunksOf_flatten bd hbd (filesToProcess files startD endD)
  constructor
  · by_cases hftp : filesToProcess files startD endD = []
    · have hw : runWrites files startD endD bd = [] := by
        simp [runWrites, chunksOf, chunksOfAux, hftp]
      simp [runEvents, hftp, hw]
    · by_cases hw : runWrites files startD endD bd = []
      · simp [runEvents, hftp, hw]
      · have hcount0 : (List.map Ev.write (runWrites files startD endD bd)).count
            Ev.consolidate = 0 := by
          rw [List.count_eq_zero]
          simp [List.mem_map]
        simp [runEvents, hftp, hw, List.count_append, hcount0]
  · constructor
    · intro hne
      have hex : ∃ b ∈ chunksOf bd (filesToProcess files startD endD),
          writeBatch b ≠ none := by
        by_contra hall
        push_neg at hall
        exact hne (List.filterMap_eq_nil_iff.mpr (fun b hb => hall b hb))
      obtain ⟨b, hb, hbne⟩ := hex
      have hsb : succDates b ≠ [] := fun hs => hbne ((writeBatch_none_iff b).mpr hs)
      have hnotall : ¬ ∀ p ∈ b, p.1.decodeOk = false :=
        fun hall => hsb ((succDates_nil_iff b).mpr hall)
      push_neg at hnotall
      obtain ⟨p, hp, hdec⟩ := hnotall
      refine ⟨p, ?_, ?_⟩
      · rw [← hchunks]
        exact List.mem_flatten.mpr ⟨b, hb, hp⟩
      · simpa using hdec
    · rintro ⟨p, hp, hdec⟩ hw
      unfold runWrites at hw
      rw [List.filterMap_eq_nil_iff] at hw
      obtain ⟨b, hb, hpb⟩ := List.mem_flatten.mp (by rw [hchunks]; exact hp)
      have hnil := (writeBatch_none_iff b).mp (hw b hb)
      rw [succDates_nil_iff] at hnil
      have := hnil p hpb
      simp [hdec] at this

/-- Witness for C8: one decodable file, one batch, one consolidation. -/
theorem c8_witness :
    0 < 365
    ∧ ((runEvents [⟨"PRISM_ppt_stable_4kmD2_19810101_bil.zip", true⟩]
          0 99999999 365).count Ev.consolidate
        = if runWrites [⟨"PRISM_ppt_stable_4kmD2_19810101_bil.zip", true⟩]
              0 99999999 365 = []
          then 0 else 1) :=
  ⟨by decide,
   (c8_consolidation [⟨"PRISM_ppt_stable_4kmD2_19810101_bil.zip", true⟩]
      0 99999999 365 (by decide)).1⟩

/-! ## Claim C5: flat-binary decode -/

/-- Indexing a mapped range. -/
theorem getD_map_range {β : Type} (n : Nat) (f : Nat → β) (i : Nat) (d : β) :
    ((List.range n).map f).getD i d = if i < n then f i else d := by
  by_cases h : i < n
  · rw [List.getD_eq_getElem?_getD, List.getElem?_map, List.getElem?_range h]
    simp [h]
  · rw [List.getD_eq_getElem?_getD, List.getElem?_map]
    rw [List.getElem?_eq_none (by simp; omega)]
    simp [h]

/-- **C5** — With resolved dimensions `nrows × ncols` and nodata sentinel
from the sidecar header (or the grid spec), a payload of exactly
`nrows * ncols` values decodes to a grid of exactly `nrows` rows of
`ncols` cells, filled row-major, in which cell `(i, j)` is masked (`none`)
precisely when payload element `i * ncols + j` equals the sentinel and
otherwise carries that element; any other payload length is a decode
error. -/
theorem c5_decode (s : GridSpec) (hdr : Option Header) (payload : List ℚ) :
    (payload.length = resolvedNrows s hdr * resolvedNcols s hdr →
      ∃ g, read_bil_data s hdr payload = Except.ok g
        ∧ g.length = resolvedNrows s hdr
        ∧ (∀ row ∈ g, row.length = resolvedNcols s hdr)
        ∧ (∀ i j, i < resolvedNrows s hdr → j < resolvedNcols s hdr →
            (g.getD i []).getD j (some 0)
              = (if payload.getD (i * resolvedNcols s hdr + j) 0
                    = resolvedNodata s hdr
                 then none
                 else some (payload.getD (i * resolvedNcols s hdr + j) 0))))
    ∧ (payload.length ≠ resolvedNrows s hdr * resolvedNcols s hdr →
        read_bil_data s hdr payload = Except.error "cannot reshape array") := by
  constructor
  · intro hlen
    refine ⟨maskNodata (resolvedNodata s hdr)
        (reshapeGrid (resolvedNrows s hdr) (resolvedNcols s hdr) payload),
      ?_, ?_, ?_, ?_⟩
    · simp only [read_bil_data]
      rw [if_pos hlen]
    · simp [maskNodata, reshapeGrid]
    · intro row hrow
      simp only [maskNodata, reshapeGrid, List.map_map, List.mem_map,
        List.mem_range] at hrow
      obtain ⟨i, _, hrow⟩ := hrow
      simp [← hrow]
    · intro i j hi hj
      simp only [maskNodata, reshapeGrid, List.map_map]
      rw [getD_map_range, if_pos hi]
      simp only [Function.comp_apply, List.map_map]
      rw [getD_map_range, if_pos hj]
      simp [Function.comp_apply]
  · intro hne
    simp only [read_bil_data]
    rw [if_neg hne]

/-- Witness for C5: a 2×2 grid (dimensions from a sidecar header) with one
nodata cell. -/
theorem c5_witness :
    (([5, -9999, 7, 8] : List ℚ).length
        = resolvedNrows spec4km (some ⟨some 2, some 2, none⟩)
          * resolvedNcols spec4km (some ⟨some 2, some 2, none⟩))
    ∧ (∃ g, read_bil_data spec4km (some ⟨some 2, some 2, none⟩)
          ([5, -9999, 7, 8] : List ℚ) = Except.ok g
        ∧ g.length = resolvedNrows spec4km (some ⟨some 2, some 2, none⟩)
        ∧ (∀ row ∈ g, row.length = resolvedNcols spec4km (some ⟨some 2, some 2, none⟩))
        ∧ (∀ i j, i < resolvedNrows spec4km (some ⟨some 2, some 2, none⟩) →
            j < resolvedNcols spec4km (some ⟨some 2, some 2, none⟩) →
            (g.getD i []).getD j (some 0)
              = (if ([5, -9999, 7, 8] : List ℚ).getD
                    (i * resolvedNcols spec4km (some ⟨some 2, some 2, none⟩) + j) 0
                    = resolvedNodata spec4km (some ⟨some 2, some 2, none⟩)
                 then none
                 else some (([5, -9999, 7, 8] : List ℚ).getD
                    (i * resolvedNcols spec4km (some ⟨some 2, some 2, none⟩) + j) 0)))) :=
  ⟨by decide,
   (c5_decode spec4km (some ⟨some 2, some 2, none⟩) ([5, -9999, 7, 8] : List ℚ)).1
     (by decide)⟩

/-! ## Claim C6: archive payload arity -/

/-- **C6 (amended)** — Decoding an archive raises when the extracted
contents hold no flat-binary payload; but with one or more candidates the
first is decoded with no arity check — multiplicity is not an error,
contrary to the original claim. -/
theorem c6_amended_single_payload (s : GridSpec) (name : String)
    (entries : List Entry) :
    (entries.filter (fun e => isBilName e.base) = [] →
      read_prism_dataset s (PFile.zipF name entries)
        = Except.error "No .bil file found")
    ∧ (∀ b rest, entries.filter (fun e => isBilName e.base) = b :: rest →
        read_prism_dataset s (PFile.zipF name entries) = readBilEntry s b) := by
  constructor
  · intro h
    simp only [read_prism_dataset]
    rw [h]
  · intro b rest h
    simp only [read_prism_dataset]
    rw [h]

/-- Counterexample to C6 as stated: an archive with two flat-binary
payloads decodes successfully (using the first), instead of raising a
FormatError. -/
theorem c6_counterexample :
    (([⟨"PRISM_ppt_stable_4kmM3_197101_bil.bil", [5],
          some ⟨some 1, some 1, some (-9999)⟩⟩,
       ⟨"PRISM_tmin_stable_4kmM3_197101_bil.bil", [7],
          some ⟨some 1, some 1, some (-9999)⟩⟩]
        : List Entry).filter (fun e => isBilName e.base)).length = 2
    ∧ (read_prism_dataset spec4km (PFile.zipF "x.zip"
        [⟨"PRISM_ppt_stable_4kmM3_197101_bil.bil", [5],
            some ⟨some 1, some 1, some (-9999)⟩⟩,
         ⟨"PRISM_tmin_stable_4kmM3_197101_bil.bil", [7],
            some ⟨some 1, some 1, some (-9999)⟩⟩])).isOk = true := by decide

/-- Witness for C6 (amended): an archive without any flat-binary payload
raises. -/
theorem c6_witness :
    (([⟨"a.txt", [], none⟩] : List Entry).filter (fun e => isBilName e.base) = [])
    ∧ read_prism_dataset spec4km (PFile.zipF "x.zip" [⟨"a.txt", [], none⟩])
        = Except.error "No .bil file found" :=
  ⟨by decide,
   (c6_amended_single_payload spec4km "x.zip" [⟨"a.txt", [], none⟩]).1 (by decide)⟩

/-! ## Claim C9: coordinate orientation -/

/-- **C9** — For every grid specification with positive cell size, the
longitude coordinate array is strictly ascending and the latitude
coordinate array strictly descending, with index 0 the northernmost
latitude `yllcorner + (nrows - 1) * cellsize`; and the decoded data grid
passes through `read_bil_file` untouched (not flipped). -/
theorem c9_coords (s : GridSpec) (hcell : 0 < s.cellsize) :
    List.Sorted (· < ·) (lonCoord s)
    ∧ List.Sorted (· > ·) (latCoord s)
    ∧ (0 < s.nrows → (latCoord s).head?
        = some (s.yllcorner + ((s.nrows - 1 : Nat) : ℚ) * s.cellsize))
    ∧ (∀ f d, read_prism_dataset s f = Except.ok d →
        read_bil_file s f = Except.ok (d.data, d.meta)) := by
  have hmono : ∀ a b : Nat, a < b →
      s.xllcorner + (a : ℚ) * s.cellsize < s.xllcorner + (b : ℚ) * s.cellsize := by
    intro a b hab
    have : (a : ℚ) < (b : ℚ) := by exact_mod_cast hab
    have := mul_lt_mul_of_pos_right this hcell
    linarith
  have hmono2 : ∀ a b : Nat, a < b →
      s.yllcorner + (a : ℚ) * s.cellsize < s.yllcorner + (b : ℚ) * s.cellsize := by
    intro a b hab
    have : (a : ℚ) < (b : ℚ) := by exact_mod_cast hab
    have := mul_lt_mul_of_pos_right this hcell
    linarith
  refine ⟨?_, ?_, ?_, ?_⟩
  · unfold lonCoord
    rw [List.Sorted, List.pairwise_map]
    exact (List.pairwise_lt_range s.ncols).imp (fun hab => hmono _ _ hab)
  · unfold latCoord
    rw [List.Sorted, List.pairwise_reverse, List.pairwise_map]
    exact (List.pairwise_lt_range s.nrows).imp (fun hab => hmono2 _ _ hab)
  · intro hn
    unfold latCoord
    rw [List.head?_reverse, List.getLast?_eq_getElem?]
    have hlen : ((List.range s.nrows).map
        (fun j : Nat => s.yllcorner + (j : ℚ) * s.cellsize)).length = s.nrows := by simp
    rw [hlen, List.getElem?_map, List.getElem?_range (by omega)]
    rfl
  · intro f d h
    unfold read_bil_file
    rw [h]
    rfl

/-- Witness for C9: the 4 km grid specification. -/
theorem c9_witness :
    (0 : ℚ) < spec4km.cellsize ∧ List.Sorted (· < ·) (lonCoord spec4km) :=
  ⟨by norm_num [spec4km], (c9_coords spec4km (by norm_num [spec4km])).1⟩
